import Mathlib

/-!
Verification development for the mcp-gdb protocol bridge core.

The definitions below are a shallow embedding of the TypeScript source:
the wire parser (class MiParser in mi-parser.ts: parse, parseData,
unescapeString) and the session engine of index.ts (the rl.on line
dispatch in handleGdbStart, executeGdbCommand, waitForStop,
terminateGdbSession, and the activeSessions registry).

JavaScript regular-expression semantics are embedded by their
deterministic characterisations (leftmost match, ordered alternation,
greedy and lazy stars, the dot metacharacter not matching a newline);
JavaScript Map set and delete become replace-or-append and key filtering
on association lists; setTimeout registrations become an explicit list
of armed timers on the session state; promise resolutions and rejections
become an explicit event list emitted by each state transition.
-/

set_option autoImplicit false

/-- Opening brace character (written numerically). -/
def lbrace : Char := Char.ofNat 123

/-- Closing brace character (written numerically). -/
def rbrace : Char := Char.ofNat 125

/-- Opening bracket character. -/
def lbrack : Char := '['

/-- Closing bracket character. -/
def rbrack : Char := ']'

/-- Character class of the regex [a-zA-Z0-9_-] used for MI keys. -/
def isKeyChar (c : Char) : Bool :=
  c.isAlpha || c.isDigit || c = '_' || c = '-'

/-- Character class of the regex word escape, [A-Za-z0-9_]. -/
def isWordChar (c : Char) : Bool :=
  c.isAlpha || c.isDigit || c = '_'

/-- Embedding of String.prototype.trim: drop whitespace from both ends. -/
def trimChars (cs : List Char) : List Char :=
  ((cs.dropWhile Char.isWhitespace).reverse.dropWhile Char.isWhitespace).reverse

/-- Decimal digit run to number, as parseInt does on a digit-only string. -/
def digitsToNat (ds : List Char) : Nat :=
  ds.foldl (fun n c => n * 10 + (c.toNat - 48)) 0

/-- One global replace of the two-character pattern a,b by rep, scanning
left to right and not rescanning replacements, as a JavaScript global
regex replace of an escape pair does. -/
def replace2F (a b : Char) (rep : List Char) : Nat → List Char → List Char
  | 0, l => l
  | _ + 1, [] => []
  | fuel + 1, c :: rest =>
    match rest with
    | [] => [c]
    | d :: rest2 =>
      if c = a ∧ d = b then rep ++ replace2F a b rep fuel rest2
      else c :: replace2F a b rep fuel rest

/-- The same replace, with the fuel set high enough to never run dry. -/
def replace2 (a b : Char) (rep : List Char) (l : List Char) : List Char :=
  replace2F a b rep l.length l

namespace MiParser

/-- Embedding of MiParser.unescapeString: the chain of five global
replaces, in source order, each applied to the result of the previous
one (backslash-n first, the double backslash last). -/
def unescapeString (s : String) : String :=
  let s1 := replace2 '\\' 'n' ['\n'] s.data
  let s2 := replace2 '\\' 'r' ['\r'] s1
  let s3 := replace2 '\\' 't' ['\t'] s2
  let s4 := replace2 '\\' '"' ['"'] s3
  let s5 := replace2 '\\' '\\' ['\\'] s4
  String.mk s5

end MiParser

/-- Raw value piece captured by one match of the parseData regex:
group 3 (a c-string body), group 4 (a lazily matched brace body) or
group 5 (a lazily matched bracket body). -/
inductive RawVal where
  | rstr : List Char → RawVal
  | rtup : List Char → RawVal
  | rlist : List Char → RawVal

/-- Scan the c-string alternative of the parseData regex after its
opening quote: characters other than quote and backslash (including a
bare newline, which the negated class admits), or a backslash followed
by any character except a newline.  Returns the raw body and the rest
after the closing quote; none when the alternative cannot match. -/
def scanCStr : List Char → Option (List Char × List Char)
  | [] => none
  | c :: r =>
    if c = '"' then some ([], r)
    else if c = '\\' then
      match r with
      | [] => none
      | d :: r2 =>
        if d = '\n' then none
        else (scanCStr r2).map (fun p => ('\\' :: d :: p.1, p.2))
    else (scanCStr r).map (fun p => (c :: p.1, p.2))

/-- Lazy body of a brace or bracket alternative: everything up to the
first closing delimiter, which must exist and must be reached without
crossing a newline (the dot of the lazy star cannot match one). -/
def scanLazyBody (close : Char) (cs : List Char) : Option (List Char × List Char) :=
  let p := (cs.takeWhile (fun c => c ≠ close), cs.dropWhile (fun c => c ≠ close))
  match p.2 with
  | [] => none
  | _ :: rest => if p.1.contains '\n' then none else some (p.1, rest)

/-- Match one value alternative of the parseData regex at the current
position, in the source's alternation order: c-string, brace body,
bracket body. -/
def matchValueAt : List Char → Option (RawVal × List Char)
  | [] => none
  | c :: r =>
    if c = '"' then
      (scanCStr r).map (fun p => (RawVal.rstr p.1, p.2))
    else if c = lbrace then
      (scanLazyBody rbrace r).map (fun p => (RawVal.rtup p.1, p.2))
    else if c = lbrack then
      (scanLazyBody rbrack r).map (fun p => (RawVal.rlist p.1, p.2))
    else none

/-- Match the whole parseData regex at the current position: a nonempty
greedy key run, an equals sign, then a value alternative. -/
def matchPairAt (cs : List Char) : Option (String × RawVal × List Char) :=
  let p := (cs.takeWhile isKeyChar, cs.dropWhile isKeyChar)
  if p.1.isEmpty then none
  else
    match p.2 with
    | '=' :: r2 => (matchValueAt r2).map (fun q => (String.mk p.1, q.1, q.2))
    | _ => none

/-- The value type the source actually produces: parseData stores either
an unescaped string (group 3), a nested record (group 4, parsed
recursively), or the raw bracket body as a plain string (group 5). -/
inductive MiValue where
  | str : String → MiValue
  | obj : List (String × MiValue) → MiValue

/-- JavaScript record assignment data[key] = v on an association list:
replace the value in place when the key is present, append otherwise. -/
def insertKV (m : List (String × MiValue)) (k : String) (v : MiValue) :
    List (String × MiValue) :=
  match m with
  | [] => [(k, v)]
  | (k', v') :: t => if k' = k then (k, v) :: t else (k', v') :: insertKV t k v

/-- Key lookup on the association list (property access data.msg). -/
def lookupKV (m : List (String × MiValue)) (k : String) : Option MiValue :=
  match m with
  | [] => none
  | (k', v') :: t => if k' = k then some v' else lookupKV t k

namespace MiParser

/-- Fuelled loop of parseData over regex.exec: attempt a match at the
cursor; on success record the pair (a brace body is parsed recursively
inside a fresh record) and resume after the match, otherwise advance the
cursor by one character, exactly as the engine searches for the next
leftmost match. -/
def parseDataF : Nat → List Char → List (String × MiValue) → List (String × MiValue)
  | 0, _, acc => acc
  | _ + 1, [], acc => acc
  | fuel + 1, c :: tl, acc =>
    match matchPairAt (c :: tl) with
    | some (k, rv, rest) =>
      let v := match rv with
        | RawVal.rstr body => MiValue.str (unescapeString (String.mk body))
        | RawVal.rtup body => MiValue.obj (parseDataF fuel body [])
        | RawVal.rlist body => MiValue.str (String.mk body)
      parseDataF fuel rest (insertKV acc k v)
    | none => parseDataF fuel tl acc

/-- Embedding of MiParser.parseData. -/
def parseData (s : String) : List (String × MiValue) :=
  parseDataF (s.data.length + 1) s.data []

end MiParser

/-- Stream record kinds, mapped from the prefixes tilde, at, ampersand. -/
inductive StreamKind where
  | console : StreamKind
  | target : StreamKind
  | log : StreamKind
deriving DecidableEq

/-- Async record kinds, mapped from the prefixes star, plus, equals. -/
inductive AsyncType where
  | exec : AsyncType
  | status : AsyncType
  | notify : AsyncType
deriving DecidableEq

/-- Parsed record, the non-null result shape of MiParser.parse.  The
source returns null for unrecognised lines, embedded as none at the
parse function itself. -/
inductive Parsed where
  | result : Option Nat → String → List (String × MiValue) → Parsed
  | async : Option Nat → AsyncType → String → List (String × MiValue) → Parsed
  | stream : StreamKind → String → Parsed
  | prompt : Parsed

namespace MiParser

/-- The result-record regex: an optional greedy digit run (the token),
a caret, a nonempty word run (the class), then either end of line or a
comma and the remainder, which the dot star cannot let contain a
newline. -/
def matchResult (cs : List Char) : Option Parsed :=
  let p := (cs.takeWhile Char.isDigit, cs.dropWhile Char.isDigit)
  match p.2 with
  | '^' :: r2 =>
    let q := (r2.takeWhile isWordChar, r2.dropWhile isWordChar)
    if q.1.isEmpty then none
    else
      let tok := if p.1.isEmpty then none else some (digitsToNat p.1)
      match q.2 with
      | [] => some (Parsed.result tok (String.mk q.1) (parseData ""))
      | ',' :: rest =>
        if rest.contains '\n' then none
        else some (Parsed.result tok (String.mk q.1) (parseData (String.mk rest)))
      | _ => none
  | _ => none

/-- Prefix-to-kind table of the async-record branch. -/
def asyncTypeOf (c : Char) : Option AsyncType :=
  if c = '*' then some AsyncType.exec
  else if c = '+' then some AsyncType.status
  else if c = '=' then some AsyncType.notify
  else none

/-- The async-record regex: like the result regex with one of star,
plus, equals in place of the caret. -/
def matchAsync (cs : List Char) : Option Parsed :=
  let p := (cs.takeWhile Char.isDigit, cs.dropWhile Char.isDigit)
  match p.2 with
  | c :: r2 =>
    match asyncTypeOf c with
    | none => none
    | some aty =>
      let q := (r2.takeWhile isWordChar, r2.dropWhile isWordChar)
      if q.1.isEmpty then none
      else
        let tok := if p.1.isEmpty then none else some (digitsToNat p.1)
        match q.2 with
        | [] => some (Parsed.async tok aty (String.mk q.1) (parseData ""))
        | ',' :: rest =>
          if rest.contains '\n' then none
          else some (Parsed.async tok aty (String.mk q.1) (parseData (String.mk rest)))
        | _ => none
  | [] => none

/-- Prefix-to-kind table of the stream branch. -/
def streamKindOf (c : Char) : Option StreamKind :=
  if c = '~' then some StreamKind.console
  else if c = '@' then some StreamKind.target
  else if c = '&' then some StreamKind.log
  else none

/-- The stream-record regex: a prefix character, an opening quote, a
greedy dot star and a closing quote anchored at the end of the line, so
the captured text runs from the second character to the last quote and
may itself contain quotes but no newline. -/
def matchStream (cs : List Char) : Option Parsed :=
  match cs with
  | p :: q :: rest =>
    match streamKindOf p with
    | none => none
    | some k =>
      if q = '"' then
        match rest.getLast? with
        | some last =>
          if last = '"' then
            if rest.dropLast.contains '\n' then none
            else some (Parsed.stream k (unescapeString (String.mk rest.dropLast)))
          else none
        | none => none
      else none
  | _ => none

/-- Embedding of MiParser.parse: trim, test the prompt sentinel, then
try the result, async and stream regexes in source order; null (none)
when nothing matches. -/
def parse (line : String) : Option Parsed :=
  let cs := trimChars line.data
  if cs = "(gdb)".data then some Parsed.prompt
  else
    match matchResult cs with
    | some r => some r
    | none =>
      match matchAsync cs with
      | some r => some r
      | none => matchStream cs

end MiParser

/-- The timers a session's code arms with setTimeout: executeGdbCommand
arms one ten-second timer per issued token.  waitForStop arms nothing,
which is why no other constructor exists. -/
inductive GTimer where
  | cmdTimeout : Nat → GTimer
deriving DecidableEq

/-- Embedding of the GdbSession record of index.ts plus the runtime
facts the code manipulates around it: the armed timers, the lines
written to the child's stdin, and whether stdin is open, the process was
killed, and the readline interface closed.  pendingCommands keeps only
the keys of the Map; every stored callback is the one executeGdbCommand
builds, so its behaviour is reproduced by resultCallback below. -/
structure GdbSessionS where
  id : String
  target : Option String
  workingDir : String
  ready : Bool
  tokenSequence : Nat
  pendingCommands : List Nat
  status : String
  stopHandler : Option Nat
  outputBuffer : String
  stdinWrites : List String
  timers : List GTimer
  stdinOpen : Bool
  processKilled : Bool
  rlClosed : Bool
deriving DecidableEq

/-- Observable promise activity: a pending command resolving or being
rejected, a stop waiter resolving, or a server notification being sent
for an exec async record. -/
inductive SEvent where
  | cmdResolved : Nat → String → List (String × MiValue) → String → SEvent
  | cmdRejected : Nat → String → SEvent
  | stopResolved : Nat → String → List (String × MiValue) → SEvent
  | notified : String → List (String × MiValue) → SEvent

/-- The message of the Error a rejected command carries:
result.data.msg when it is a truthy string, the stringified object for a
record value, and the fallback text otherwise. -/
def msgOf (d : List (String × MiValue)) : String :=
  match lookupKV d "msg" with
  | some (MiValue.str s) => if s.isEmpty then "Unknown GDB error" else s
  | some (MiValue.obj _) => "[object Object]"
  | none => "Unknown GDB error"

/-- The callback executeGdbCommand registers for a token: reject with
the tool message when the class is error, otherwise resolve with the
result and the output accumulated in the session buffer at resolution
time. -/
def resultCallback (t : Nat) (cls : String) (d : List (String × MiValue))
    (out : String) : SEvent :=
  if cls = "error" then SEvent.cmdRejected t (msgOf d)
  else SEvent.cmdResolved t cls d out

/-- One step of the rl.on line dispatch of handleGdbStart, after
parsing: resolve a matching pending token (the token must be truthy and
present), send a notification and update run status for exec async
records, accumulate console stream output, and mark ready on the first
prompt. -/
def dispatchRecord (s : GdbSessionS) (p : Parsed) : GdbSessionS × List SEvent :=
  match p with
  | Parsed.result tok cls d =>
    match tok with
    | some t =>
      if t ≠ 0 ∧ t ∈ s.pendingCommands then
        ({ s with pendingCommands := s.pendingCommands.filter (fun x => x ≠ t) },
         [resultCallback t cls d s.outputBuffer])
      else (s, [])
    | none => (s, [])
  | Parsed.async _tok aty cls d =>
    let evs := if aty = AsyncType.exec then [SEvent.notified cls d] else []
    if aty = AsyncType.exec ∧ cls = "stopped" then
      match s.stopHandler with
      | some w =>
        ({ s with status := "stopped", stopHandler := none },
         evs ++ [SEvent.stopResolved w cls d])
      | none => ({ s with status := "stopped" }, evs)
    else if aty = AsyncType.exec ∧ cls = "running" then
      ({ s with status := "running" }, evs)
    else (s, evs)
  | Parsed.stream k content =>
    if k = StreamKind.console then
      ({ s with outputBuffer := s.outputBuffer ++ content }, [])
    else (s, [])
  | Parsed.prompt =>
    if s.ready then (s, []) else ({ s with ready := true }, [])

/-- The whole line handler: parse, then dispatch; a null parse returns
without touching the session or producing any event. -/
def handleLine (s : GdbSessionS) (line : String) : GdbSessionS × List SEvent :=
  match MiParser.parse line with
  | none => (s, [])
  | some p => dispatchRecord s p

/-- Immediate outcome of calling executeGdbCommand: rejected before a
token was allocated, rejected because stdin is gone, or issued with the
allocated token now in flight. -/
inductive ExecIssue where
  | notReady : ExecIssue
  | noStdin : ExecIssue
  | issued : Nat → ExecIssue
deriving DecidableEq

/-- The synchronous part of executeGdbCommand: require ready, allocate
the next token, clear the output buffer, register the pending callback,
write token-command to stdin and arm the ten-second timer; when stdin is
unavailable the fresh registration is deleted again and the call is
rejected.  The later resolution of the returned promise is driven by
line and timer events. -/
def executeGdbCommand (s : GdbSessionS) (command : String) :
    GdbSessionS × ExecIssue :=
  if s.ready then
    let token := s.tokenSequence
    let s1 := { s with
      tokenSequence := s.tokenSequence + 1,
      outputBuffer := "",
      pendingCommands :=
        if token ∈ s.pendingCommands then s.pendingCommands
        else s.pendingCommands ++ [token] }
    if s.stdinOpen then
      ({ s1 with
        stdinWrites := s1.stdinWrites ++ [toString token ++ "-" ++ command ++ "\n"],
        timers := s1.timers ++ [GTimer.cmdTimeout token] }, ExecIssue.issued token)
    else
      ({ s1 with pendingCommands := s1.pendingCommands.filter (fun x => x ≠ token) },
       ExecIssue.noStdin)
  else (s, ExecIssue.notReady)

/-- Firing an armed timer.  The only timer kind is the per-command
timeout: when its token is still pending it deletes the registration and
rejects with the timeout message, otherwise it does nothing. -/
def fireTimer (s : GdbSessionS) (t : GTimer) : GdbSessionS × List SEvent :=
  if t ∈ s.timers then
    match t with
    | GTimer.cmdTimeout token =>
      let s1 := { s with timers := s.timers.erase t }
      if token ∈ s1.pendingCommands then
        ({ s1 with pendingCommands := s1.pendingCommands.filter (fun x => x ≠ token) },
         [SEvent.cmdRejected token "GDB command timed out"])
      else (s1, [])
  else (s, [])

/-- Embedding of waitForStop: assign the stop handler (silently
replacing any previous one) and nothing else; in particular no timer is
armed and no other field is read or written. -/
def waitForStop (s : GdbSessionS) (waiter : Nat) : GdbSessionS :=
  { s with stopHandler := some waiter }

/-- External happenings a live session reacts to: an output line, an
armed timer firing, or the child process exiting (for which, after
startup, no listener that touches the session state is installed). -/
inductive GEvent where
  | line : String → GEvent
  | timer : GTimer → GEvent
  | processExit : GEvent

/-- Process one external event. -/
def step (s : GdbSessionS) (e : GEvent) : GdbSessionS × List SEvent :=
  match e with
  | GEvent.line l => handleLine s l
  | GEvent.timer t => fireTimer s t
  | GEvent.processExit => (s, [])

/-- Process a sequence of external events in arrival order, collecting
the emitted promise activity. -/
def runEvents (s : GdbSessionS) (evs : List GEvent) : GdbSessionS × List SEvent :=
  match evs with
  | [] => (s, [])
  | e :: rest =>
    let p1 := step s e
    let p2 := runEvents p1.1 rest
    (p2.1, p1.2 ++ p2.2)

/-- Whether an external event is a line carrying an exec stopped
notification, the only kind of event able to resolve a stop waiter. -/
def isStopEvent (e : GEvent) : Bool :=
  match e with
  | GEvent.line l =>
    match MiParser.parse l with
    | some (Parsed.async _ AsyncType.exec cls _) => cls = "stopped"
    | _ => false
  | _ => false

/-- Whether a promise event resolves some stop waiter. -/
def isStopRes (e : SEvent) : Bool :=
  match e with
  | SEvent.stopResolved _ _ _ => true
  | _ => false

/-- Whether a promise event resolves the given stop waiter. -/
def isStopResFor (w : Nat) (e : SEvent) : Bool :=
  match e with
  | SEvent.stopResolved w' _ _ => w' = w
  | _ => false

/-- The activeSessions map: an association list keyed by session id. -/
abbrev Registry := List (String × GdbSessionS)

/-- Map.get on the registry. -/
def lookupReg : Registry → String → Option GdbSessionS
  | [], _ => none
  | (k, v) :: t, sid => if k = sid then some v else lookupReg t sid

/-- Map.set on the registry: replace in place when the key exists,
append otherwise. -/
def registrySet : Registry → String → GdbSessionS → Registry
  | [], k, v => [(k, v)]
  | (k', v') :: t, k, v =>
    if k' = k then (k, v) :: t else (k', v') :: registrySet t k v

/-- Map.delete on the registry. -/
def registryDelete (reg : Registry) (sid : String) : Registry :=
  reg.filter (fun p => p.1 ≠ sid)

/-- The id handleGdbStart allocates: Date.now().toString(), the decimal
millisecond clock reading at the moment of the call, with no collision
check. -/
def allocSessionId (now : Nat) : String := toString now

/-- The GdbSession record handleGdbStart constructs before storing it. -/
def newSession (sid : String) (workingDir : String) : GdbSessionS :=
  { id := sid
    target := none
    workingDir := workingDir
    ready := false
    tokenSequence := 1
    pendingCommands := []
    status := "stopped"
    stopHandler := none
    outputBuffer := ""
    stdinWrites := []
    timers := []
    stdinOpen := true
    processKilled := false
    rlClosed := false }

/-- The registration step of handleGdbStart: allocate the id from the
clock and store the fresh session in activeSessions. -/
def handleGdbStartRegister (reg : Registry) (now : Nat) (workingDir : String) :
    String × Registry :=
  let sid := allocSessionId now
  (sid, registrySet reg sid (newSession sid workingDir))

/-- The per-session part of terminateGdbSession: issue gdb-exit through
executeGdbCommand (its eventual rejection is awaited and ignored; the
state changes of issuing happen immediately), then kill the process if
not yet killed and close the readline interface.  No pending command and
no stop waiter is resolved: the returned event list is empty. -/
def terminateSession (s : GdbSessionS) : GdbSessionS × List SEvent :=
  let s1 := (executeGdbCommand s "-gdb-exit").1
  let s2 := if s1.processKilled then s1 else { s1 with processKilled := true }
  let s3 := { s2 with rlClosed := true }
  (s3, [])

/-- Embedding of terminateGdbSession: fail on an unknown id, otherwise
run the per-session teardown and delete the id from activeSessions. -/
def terminateGdbSession (reg : Registry) (sid : String) :
    Option (Registry × GdbSessionS × List SEvent) :=
  match lookupReg reg sid with
  | none => none
  | some s =>
    let p := terminateSession s
    some (registryDelete reg sid, p.1, p.2)

/-- A session as handleGdbStart leaves it once the first prompt has
arrived: fresh but ready. -/
def readySession : GdbSessionS :=
  { newSession "1" "/tmp" with ready := true }

/-- Value type of the reference decoder, following the words of the
value grammar: c-strings, tuples of pairs, and lists that keep the
distinction between a list of bare values and a list of pairs. -/
inductive SpecValue where
  | str : String → SpecValue
  | tuple : List (String × SpecValue) → SpecValue
  | listV : List SpecValue → SpecValue
  | listP : List (String × SpecValue) → SpecValue

/-- Single-pass unescaping for the reference decoder: each escape pair
is decoded exactly once, left to right; an unknown escape keeps its
character. -/
def specUnescape : List Char → List Char
  | [] => []
  | c :: rest =>
    if c = '\\' then
      match rest with
      | [] => ['\\']
      | d :: rest2 =>
        (if d = 'n' then '\n'
         else if d = 'r' then '\r'
         else if d = 't' then '\t'
         else if d = '"' then '"'
         else if d = '\\' then '\\'
         else d) :: specUnescape rest2
    else c :: specUnescape rest

mutual

/-- Reference recursive descent: one value. -/
def specParseValue : Nat → List Char → Option (SpecValue × List Char)
  | 0, _ => none
  | _ + 1, [] => none
  | fuel + 1, c :: r =>
    if c = '"' then
      match scanCStr r with
      | some (body, rest) => some (SpecValue.str (String.mk (specUnescape body)), rest)
      | none => none
    else if c = lbrace then
      match r with
      | [] => none
      | d :: r2 =>
        if d = rbrace then some (SpecValue.tuple [], r2)
        else
          match specParsePairs fuel r with
          | some (ps, e :: r4) =>
            if e = rbrace then some (SpecValue.tuple ps, r4) else none
          | _ => none
    else if c = lbrack then
      match r with
      | [] => none
      | d :: r2 =>
        if d = rbrack then some (SpecValue.listV [], r2)
        else if d = '"' ∨ d = lbrace ∨ d = lbrack then
          match specParseValues fuel r with
          | some (vs, e :: r4) =>
            if e = rbrack then some (SpecValue.listV vs, r4) else none
          | _ => none
        else
          match specParsePairs fuel r with
          | some (ps, e :: r4) =>
            if e = rbrack then some (SpecValue.listP ps, r4) else none
          | _ => none
    else none

/-- Reference recursive descent: pair, then comma-separated pairs. -/
def specParsePairs : Nat → List Char → Option (List (String × SpecValue) × List Char)
  | 0, _ => none
  | fuel + 1, cs =>
    let p := (cs.takeWhile isKeyChar, cs.dropWhile isKeyChar)
    if p.1.isEmpty then none
    else
      match p.2 with
      | '=' :: r2 =>
        match specParseValue fuel r2 with
        | some (v, ',' :: r4) =>
          match specParsePairs fuel r4 with
          | some (ps, r5) => some ((String.mk p.1, v) :: ps, r5)
          | none => none
        | some (v, r3) => some ([(String.mk p.1, v)], r3)
        | none => none
      | _ => none

/-- Reference recursive descent: value, then comma-separated values. -/
def specParseValues : Nat → List Char → Option (List SpecValue × List Char)
  | 0, _ => none
  | fuel + 1, cs =>
    match specParseValue fuel cs with
    | some (v, ',' :: r2) =>
      match specParseValues fuel r2 with
      | some (vs, r3) => some (v :: vs, r3)
      | none => none
    | some (v, r1) => some ([v], r1)
    | none => none

end

/-- Reference decoder over the value grammar: the whole body must be a
comma-separated sequence of pairs, consumed completely; an empty body is
the empty sequence; anything else is a decode error. -/
def specDecode (body : String) : Option (List (String × SpecValue)) :=
  let cs := body.data
  if cs.isEmpty then some []
  else
    match specParsePairs (cs.length + 1) cs with
    | some (ps, []) => some ps
    | _ => none

/-- Claim C1 (code bug): on the depth-three body a=\x7bb=\x7bc=\x7bd="1"\x7d\x7d\x7d the
source's parseData returns a record that drops the keys b and c (the
lazy brace match stops at the first closing brace), while the reference
recursive-descent decoder over the section 4.2 grammar returns the fully
nested tuple; and on a list body the source returns the raw bracket text
as a plain string where the reference decoder returns a list of bare
values, erasing the list distinction the claim requires. -/
theorem c1_parseData_flattens_nested_and_stringifies_lists :
    MiParser.parseData "a=\x7bb=\x7bc=\x7bd=\"1\"\x7d\x7d\x7d" =
      [("a", MiValue.obj [("d", MiValue.str "1")])] ∧
    specDecode "a=\x7bb=\x7bc=\x7bd=\"1\"\x7d\x7d\x7d" =
      some [("a", SpecValue.tuple [("b", SpecValue.tuple
        [("c", SpecValue.tuple [("d", SpecValue.str "1")])])])] ∧
    MiParser.parseData "x=[\"1\",\"2\"]" = [("x", MiValue.str "\"1\",\"2\"")] ∧
    specDecode "x=[\"1\",\"2\"]" =
      some [("x", SpecValue.listV [SpecValue.str "1", SpecValue.str "2"])] :=
  ⟨rfl, rfl, rfl, rfl⟩

/-- Claim C2, counterexample: a line matching none of the shapes does
not yield an Unrecognized record carrying the raw line; parse returns
null (none), the absent result the claim rules out. -/
theorem c2_unrecognized_line_yields_no_record :
    MiParser.parse "hello world" = none := rfl

/-- Claim C2, amended: parse is total but partial-valued; a line
matching no shape parses to none, and the line dispatcher then returns
without touching the session and without emitting any event, so the
failure is silently dropped. -/
theorem c2_amended_unparsed_line_silently_dropped
    (s : GdbSessionS) (line : String) (h : MiParser.parse line = none) :
    handleLine s line = (s, []) := by
  simp [handleLine, h]

/-- Witness for the amended claim C2 at the line hello world. -/
theorem c2_amended_witness :
    MiParser.parse "hello world" = none ∧
    handleLine readySession "hello world" = (readySession, []) :=
  ⟨rfl, c2_amended_unparsed_line_silently_dropped readySession "hello world" rfl⟩

/-- Claim C9: dispatching an async record of kind status or notify
leaves the session entirely unchanged and emits nothing; only exec
records reach the branches that notify or mutate the run status. -/
theorem c9_status_notify_leave_session_unchanged
    (s : GdbSessionS) (line : String) (tok : Option Nat) (aty : AsyncType)
    (cls : String) (d : List (String × MiValue))
    (h : MiParser.parse line = some (Parsed.async tok aty cls d))
    (hk : aty = AsyncType.status ∨ aty = AsyncType.notify) :
    handleLine s line = (s, []) := by
  rcases hk with rfl | rfl <;> simp [handleLine, h, dispatchRecord]

/-- Witness for claim C9 at a status record and a notify record. -/
theorem c9_witness :
    MiParser.parse "+download,progress=\"5\"" =
      some (Parsed.async none AsyncType.status "download"
        [("progress", MiValue.str "5")]) ∧
    handleLine readySession "+download,progress=\"5\"" = (readySession, []) ∧
    MiParser.parse "=library,id=\"7\"" =
      some (Parsed.async none AsyncType.notify "library"
        [("id", MiValue.str "7")]) ∧
    handleLine readySession "=library,id=\"7\"" = (readySession, []) :=
  ⟨rfl,
   c9_status_notify_leave_session_unchanged readySession "+download,progress=\"5\""
     none AsyncType.status "download" [("progress", MiValue.str "5")] rfl (Or.inl rfl),
   rfl,
   c9_status_notify_leave_session_unchanged readySession "=library,id=\"7\""
     none AsyncType.notify "library" [("id", MiValue.str "7")] rfl (Or.inr rfl)⟩

/-- Claim C6, counterexample: a log stream record is parsed with its
text, yet dispatching it leaves the session untouched; the text is not
appended to the output accumulator. -/
theorem c6_log_stream_not_accumulated :
    MiParser.parse "&\"hi\"" = some (Parsed.stream StreamKind.log "hi") ∧
    handleLine readySession "&\"hi\"" = (readySession, []) :=
  ⟨rfl, rfl⟩

/-- Claim C6, amended: only console stream records are appended to the
output accumulator; target and log stream records leave the session
unchanged and emit nothing. -/
theorem c6_amended_only_console_accumulated
    (s : GdbSessionS) (line : String) (k : StreamKind) (content : String)
    (h : MiParser.parse line = some (Parsed.stream k content)) :
    handleLine s line =
      if k = StreamKind.console then
        ({ s with outputBuffer := s.outputBuffer ++ content }, ([] : List SEvent))
      else (s, []) := by
  simp [handleLine, h, dispatchRecord]

/-- Witness for the amended claim C6 at a console line and a target
line. -/
theorem c6_amended_witness :
    MiParser.parse "~\"ab\"" = some (Parsed.stream StreamKind.console "ab") ∧
    handleLine readySession "~\"ab\"" = ({ readySession with outputBuffer := "ab" }, []) ∧
    MiParser.parse "@\"cd\"" = some (Parsed.stream StreamKind.target "cd") ∧
    handleLine readySession "@\"cd\"" = (readySession, []) := by
  refine ⟨rfl, ?_, rfl, ?_⟩
  · have h := c6_amended_only_console_accumulated readySession "~\"ab\""
      StreamKind.console "ab" rfl
    simpa using h
  · have h := c6_amended_only_console_accumulated readySession "@\"cd\""
      StreamKind.target "cd" rfl
    simpa using h

/-- Claim C7, counterexample: in the line consisting of tilde, a quote,
two backslashes, the letter n and a quote, the escaped backslash
followed by n is decoded by the replace chain into a single backslash
followed by a newline character, not into a backslash and the letter n
as the claim requires. -/
theorem c7_double_backslash_n_decodes_to_newline :
    MiParser.parse "~\"\\\\n\"" = some (Parsed.stream StreamKind.console "\\\n") ∧
    ("\\\n" : String) ≠ "\\n" :=
  ⟨rfl, by decide⟩

/-- Claim C10: a session holds at most one stop waiter; registering a
second waiter silently replaces the first, and an exec stopped record
then resolves only the most recent waiter and clears the registration,
so the replaced waiter is never resolved. -/
theorem c10_new_waiter_replaces_and_resolves
    (s : GdbSessionS) (w1 w2 : Nat) (line : String) (tok : Option Nat)
    (d : List (String × MiValue))
    (_h1 : s.stopHandler = some w1) (hne : w1 ≠ w2)
    (h : MiParser.parse line = some (Parsed.async tok AsyncType.exec "stopped" d)) :
    (waitForStop s w2).stopHandler = some w2 ∧
    handleLine (waitForStop s w2) line =
      ({ s with status := "stopped", stopHandler := none },
       [SEvent.notified "stopped" d, SEvent.stopResolved w2 "stopped" d]) ∧
    ((handleLine (waitForStop s w2) line).2.all fun e => !(isStopResFor w1 e)) = true := by
  refine ⟨rfl, ?_, ?_⟩
  · simp [handleLine, h, dispatchRecord, waitForStop]
  · simp [handleLine, h, dispatchRecord, waitForStop, isStopResFor, hne, Ne.symm hne]

/-- Witness for claim C10: a session whose waiter one is replaced by
waiter two before a stopped record arrives. -/
theorem c10_witness :
    ({ readySession with stopHandler := some 1 } : GdbSessionS).stopHandler = some 1 ∧
    (1 : Nat) ≠ 2 ∧
    MiParser.parse "*stopped,reason=\"breakpoint-hit\"" =
      some (Parsed.async none AsyncType.exec "stopped"
        [("reason", MiValue.str "breakpoint-hit")]) ∧
    ((waitForStop { readySession with stopHandler := some 1 } 2).stopHandler = some 2 ∧
     handleLine (waitForStop { readySession with stopHandler := some 1 } 2)
         "*stopped,reason=\"breakpoint-hit\"" =
       ({ { readySession with stopHandler := some 1 } with
           status := "stopped", stopHandler := none },
        [SEvent.notified "stopped" [("reason", MiValue.str "breakpoint-hit")],
         SEvent.stopResolved 2 "stopped" [("reason", MiValue.str "breakpoint-hit")]]) ∧
     ((handleLine (waitForStop { readySession with stopHandler := some 1 } 2)
         "*stopped,reason=\"breakpoint-hit\"").2.all
       fun e => !(isStopResFor 1 e)) = true) :=
  ⟨rfl, by decide, rfl,
   c10_new_waiter_replaces_and_resolves { readySession with stopHandler := some 1 }
     1 2 "*stopped,reason=\"breakpoint-hit\"" none
     [("reason", MiValue.str "breakpoint-hit")] rfl (by decide) rfl⟩

/-- Claim C5: with two in-flight tokens and their result records
arriving in reverse order, each record resolves (or rejects, when its
class is error) exactly the pending command whose token it carries,
reading the untouched output buffer, and afterwards the pending table
holds the original tokens minus both, with no stale entry. -/
theorem c5_out_of_order_results_resolve_their_own_tokens
    (s : GdbSessionS) (t1 t2 : Nat) (l1 l2 cls1 cls2 : String)
    (d1 d2 : List (String × MiValue))
    (h1 : MiParser.parse l1 = some (Parsed.result (some t1) cls1 d1))
    (h2 : MiParser.parse l2 = some (Parsed.result (some t2) cls2 d2))
    (ht1 : t1 ∈ s.pendingCommands) (ht2 : t2 ∈ s.pendingCommands)
    (hne : t1 ≠ t2) (hz1 : t1 ≠ 0) (hz2 : t2 ≠ 0) :
    runEvents s [GEvent.line l2, GEvent.line l1] =
      ({ s with pendingCommands :=
          (s.pendingCommands.filter (fun x => x ≠ t2)).filter (fun x => x ≠ t1) },
       [resultCallback t2 cls2 d2 s.outputBuffer,
        resultCallback t1 cls1 d1 s.outputBuffer]) := by
  have e2 : handleLine s l2 =
      ({ s with pendingCommands := s.pendingCommands.filter (fun x => x ≠ t2) },
       [resultCallback t2 cls2 d2 s.outputBuffer]) := by
    simp [handleLine, h2, dispatchRecord, hz2, ht2]
  have ht1' : t1 ∈ s.pendingCommands.filter (fun x => x ≠ t2) := by
    simp only [List.mem_filter, decide_eq_true_eq]
    exact ⟨ht1, hne⟩
  have e1 : handleLine
        { s with pendingCommands := s.pendingCommands.filter (fun x => x ≠ t2) } l1 =
      ({ s with pendingCommands :=
          (s.pendingCommands.filter (fun x => x ≠ t2)).filter (fun x => x ≠ t1) },
       [resultCallback t1 cls1 d1 s.outputBuffer]) := by
    simp [handleLine, h1, dispatchRecord, hz1, ht1', ht1, hne]
  have key : ∀ (sB sC : GdbSessionS) (evA evB : List SEvent),
      handleLine s l2 = (sB, evA) → handleLine sB l1 = (sC, evB) →
      runEvents s [GEvent.line l2, GEvent.line l1] = (sC, evA ++ evB) := by
    intro sB sC evA evB hA hB
    simp [runEvents, step, hA, hB]
  exact key _ _ _ _ e2 e1

/-- Session used by the witness of claim C5: ready, with tokens one and
two in flight. -/
def c5session : GdbSessionS :=
  { readySession with pendingCommands := [1, 2], tokenSequence := 3 }

/-- Witness for claim C5: tokens one and two in flight, the done record
for token two arriving before the error record for token one. -/
theorem c5_witness :
    MiParser.parse "1^error,msg=\"boom\"" =
      some (Parsed.result (some 1) "error" [("msg", MiValue.str "boom")]) ∧
    MiParser.parse "2^done" = some (Parsed.result (some 2) "done" []) ∧
    (1 : Nat) ∈ c5session.pendingCommands ∧
    (2 : Nat) ∈ c5session.pendingCommands ∧
    runEvents c5session [GEvent.line "2^done", GEvent.line "1^error,msg=\"boom\""] =
      ({ c5session with pendingCommands := [] },
       [SEvent.cmdResolved 2 "done" [] "", SEvent.cmdRejected 1 "boom"]) := by
  refine ⟨rfl, rfl, by decide, by decide, ?_⟩
  have h := c5_out_of_order_results_resolve_their_own_tokens
    c5session 1 2 "1^error,msg=\"boom\"" "2^done" "error" "done"
    [("msg", MiValue.str "boom")] [] rfl rfl (by decide) (by decide)
    (by decide) (by decide) (by decide)
  rw [h]
  rfl

/-- Claim C3, counterexample: waitForStop arms no timer at all (the
timer list is untouched, so no timeout event for the waiter exists to
fire), and after console, result and running lines have been processed
the waiter is still registered and no stop resolution and no rejection
of any kind has been emitted: the call suspends indefinitely instead of
failing with a stop timeout. -/
theorem c3_waitForStop_arms_no_timer :
    (waitForStop readySession 1).timers = [] ∧
    (waitForStop readySession 1).stopHandler = some 1 ∧
    (runEvents (waitForStop readySession 1)
      [GEvent.line "~\"out\"", GEvent.line "1^done",
       GEvent.line "*running,thread-id=\"all\""]).1.stopHandler = some 1 ∧
    (runEvents (waitForStop readySession 1)
      [GEvent.line "~\"out\"", GEvent.line "1^done",
       GEvent.line "*running,thread-id=\"all\""]).2 =
      [SEvent.notified "running" [("thread-id", MiValue.str "all")]] :=
  ⟨rfl, rfl, rfl, rfl⟩

/-- Helper for the amended claim C3: a single event that is not an exec
stopped line never emits a stop resolution. -/
theorem step_no_stopRes (s : GdbSessionS) (e : GEvent)
    (he : isStopEvent e = false) :
    ((step s e).2.all fun ev => !(isStopRes ev)) = true := by
  cases e with
  | processExit => rfl
  | timer t =>
    cases t with
    | cmdTimeout token =>
      simp only [step, fireTimer]
      split
      · split <;> simp [isStopRes]
      · rfl
  | line l =>
    simp only [step, handleLine]
    cases hp : MiParser.parse l with
    | none => rfl
    | some p =>
      cases p with
      | result tok cls d =>
        cases tok with
        | none => rfl
        | some t =>
          simp only [dispatchRecord]
          split
          · simp [resultCallback]
            split <;> simp [isStopRes]
          · rfl
      | async tok aty cls d =>
        cases aty with
        | exec =>
          have hc : (cls = "stopped") = False := by
            simp only [isStopEvent, hp] at he
            simpa using he
          simp [dispatchRecord, hc, isStopRes]
          split <;> simp [isStopRes]
        | status => simp [dispatchRecord, isStopRes]
        | notify => simp [dispatchRecord, isStopRes]
      | stream k content =>
        simp only [dispatchRecord]
        split <;> rfl
      | prompt =>
        simp only [dispatchRecord]
        split <;> rfl

/-- Helper for the amended claim C3: without an exec stopped line in the
event sequence, no stop resolution is ever emitted. -/
theorem runEvents_no_stopRes (s : GdbSessionS) (evs : List GEvent)
    (h : ∀ e ∈ evs, isStopEvent e = false) :
    ((runEvents s evs).2.all fun ev => !(isStopRes ev)) = true := by
  induction evs generalizing s with
  | nil => rfl
  | cons e rest ih =>
    have h1 : isStopEvent e = false := h e (List.mem_cons_self e rest)
    have h2 : ∀ x ∈ rest, isStopEvent x = false :=
      fun x hx => h x (List.mem_cons_of_mem e hx)
    simp only [runEvents, List.all_append]
    rw [Bool.and_eq_true]
    exact ⟨step_no_stopRes s e h1, ih (step s e).1 h2⟩

/-- Claim C3, amended: waitForStop registers the one-shot stop handler
and nothing more: the run status and the armed timers are untouched (so
no stop timeout exists to elapse), and as long as no exec stopped line
arrives the waiter is neither resolved nor rejected, however many other
lines or timer firings occur. -/
theorem c3_amended_no_stop_timeout (s : GdbSessionS) (w : Nat)
    (evs : List GEvent) (h : ∀ e ∈ evs, isStopEvent e = false) :
    (waitForStop s w).status = s.status ∧
    (waitForStop s w).timers = s.timers ∧
    (waitForStop s w).stopHandler = some w ∧
    ((runEvents (waitForStop s w) evs).2.all fun ev => !(isStopRes ev)) = true :=
  ⟨rfl, rfl, rfl, runEvents_no_stopRes (waitForStop s w) evs h⟩

/-- Witness for the amended claim C3 at a concrete non-stop event
sequence. -/
theorem c3_amended_witness :
    (∀ e ∈ [GEvent.line "1^done", GEvent.timer (GTimer.cmdTimeout 1)],
      isStopEvent e = false) ∧
    ((waitForStop readySession 3).status = readySession.status ∧
     (waitForStop readySession 3).timers = readySession.timers ∧
     (waitForStop readySession 3).stopHandler = some 3 ∧
     ((runEvents (waitForStop readySession 3)
        [GEvent.line "1^done", GEvent.timer (GTimer.cmdTimeout 1)]).2.all
       fun ev => !(isStopRes ev)) = true) :=
  ⟨by decide, c3_amended_no_stop_timeout readySession 3
    [GEvent.line "1^done", GEvent.timer (GTimer.cmdTimeout 1)] (by decide)⟩

/-- Session used by the claim C4 theorems: ready, with token one in
flight (its ten-second timer armed) and stop waiter seven registered. -/
def c4session : GdbSessionS :=
  { readySession with
      pendingCommands := [1]
      timers := [GTimer.cmdTimeout 1]
      stopHandler := some 7
      tokenSequence := 2 }

/-- Claim C4, counterexample: terminating the session that holds
in-flight token one and stop waiter seven emits no resolution event at
all; the token is still pending afterwards and the waiter is still
registered, and the token is eventually rejected by its own command
timer with the timeout message, not with a process-exited error. -/
theorem c4_terminate_resolves_nothing :
    terminateGdbSession [("9", c4session)] "9" =
      some ([], (terminateSession c4session).1, []) ∧
    1 ∈ (terminateSession c4session).1.pendingCommands ∧
    (terminateSession c4session).1.stopHandler = some 7 ∧
    (fireTimer (terminateSession c4session).1 (GTimer.cmdTimeout 1)).2 =
      [SEvent.cmdRejected 1 "GDB command timed out"] :=
  ⟨rfl, by decide, rfl, rfl⟩

/-- Claim C4, amended: neither termination nor a process exit resolves
an in-flight command or a stop waiter.  Termination issues gdb-exit,
kills the process and closes the reader without emitting any event,
leaving the earlier token pending and the waiter registered; the token
is rejected only when its own ten-second timer fires, with the timeout
message rather than a process-exited error, and a process exit event
dispatches to no handler and changes nothing. -/
theorem c4_amended_terminate_leaves_pending (s : GdbSessionS) (t w : Nat)
    (hp : t ∈ s.pendingCommands) (hlt : t < s.tokenSequence)
    (hw : s.stopHandler = some w) (htm : GTimer.cmdTimeout t ∈ s.timers) :
    (terminateSession s).2 = [] ∧
    t ∈ (terminateSession s).1.pendingCommands ∧
    (terminateSession s).1.stopHandler = some w ∧
    (fireTimer (terminateSession s).1 (GTimer.cmdTimeout t)).2 =
      [SEvent.cmdRejected t "GDB command timed out"] ∧
    t ∉ (fireTimer (terminateSession s).1 (GTimer.cmdTimeout t)).1.pendingCommands ∧
    step s GEvent.processExit = (s, []) := by
  have hne : t ≠ s.tokenSequence := Nat.ne_of_lt hlt
  have hmem : t ∈ (terminateSession s).1.pendingCommands ∧
      (terminateSession s).1.stopHandler = some w ∧
      GTimer.cmdTimeout t ∈ (terminateSession s).1.timers ∧
      (terminateSession s).2 = [] := by
    simp only [terminateSession, executeGdbCommand]
    by_cases hr : s.ready
    · by_cases ho : s.stdinOpen
      · by_cases hdup : s.tokenSequence ∈ s.pendingCommands <;>
          by_cases hk : s.processKilled <;>
          simp [hr, ho, hdup, hk, hw, hp, htm]
      · by_cases hdup : s.tokenSequence ∈ s.pendingCommands <;>
          by_cases hk : s.processKilled <;>
          simp [hr, ho, hdup, hk, hw, hp, htm, List.mem_filter, hne]
    · by_cases hk : s.processKilled <;> simp [hr, hk, hw, hp, htm]
  refine ⟨hmem.2.2.2, hmem.1, hmem.2.1, ?_, ?_, rfl⟩
  · simp [fireTimer, hmem.2.2.1, hmem.1]
  · simp [fireTimer, hmem.2.2.1, hmem.1, List.mem_filter]

/-- Witness for the amended claim C4 at the concrete session with token
one in flight and waiter seven registered. -/
theorem c4_amended_witness :
    (1 ∈ c4session.pendingCommands ∧ 1 < c4session.tokenSequence ∧
     c4session.stopHandler = some 7 ∧ GTimer.cmdTimeout 1 ∈ c4session.timers) ∧
    ((terminateSession c4session).2 = [] ∧
     1 ∈ (terminateSession c4session).1.pendingCommands ∧
     (terminateSession c4session).1.stopHandler = some 7 ∧
     (fireTimer (terminateSession c4session).1 (GTimer.cmdTimeout 1)).2 =
       [SEvent.cmdRejected 1 "GDB command timed out"] ∧
     1 ∉ (fireTimer (terminateSession c4session).1 (GTimer.cmdTimeout 1)).1.pendingCommands ∧
     step c4session GEvent.processExit = (c4session, [])) :=
  ⟨⟨by decide, by decide, rfl, by decide⟩,
   c4_amended_terminate_leaves_pending c4session 1 7
     (by decide) (by decide) rfl (by decide)⟩

/-- Helper for claim C8: storing under a key absent from the map
appends a fresh entry. -/
theorem registrySet_of_absent (reg : Registry) (k : String) (v : GdbSessionS)
    (h : lookupReg reg k = none) : registrySet reg k v = reg ++ [(k, v)] := by
  induction reg with
  | nil => rfl
  | cons hd tl ih =>
    simp only [lookupReg] at h
    by_cases hk : hd.1 = k
    · simp [hk] at h
    · cases hd with
      | mk k' v' =>
        simp only [registrySet]
        rw [if_neg hk]
        simp only [List.cons_append, List.cons.injEq, true_and]
        exact ih (by simpa [hk] using h)

/-- Helper for claim C8: storing again under the same key replaces the
entry in place. -/
theorem registrySet_append_same (reg : Registry) (k : String)
    (v1 v2 : GdbSessionS) (h : lookupReg reg k = none) :
    registrySet (reg ++ [(k, v1)]) k v2 = reg ++ [(k, v2)] := by
  induction reg with
  | nil => simp [registrySet]
  | cons hd tl ih =>
    simp only [lookupReg] at h
    by_cases hk : hd.1 = k
    · simp [hk] at h
    · cases hd with
      | mk k' v' =>
        simp only [List.cons_append, registrySet]
        rw [if_neg hk]
        simp only [List.cons.injEq, true_and]
        exact ih (by simpa [hk] using h)

/-- Claim C8, counterexample: two create calls whose clock readings fall
in the same millisecond receive the same session id, and the second
registration displaces the first session (started in directory /a) from
the sessions map, which afterwards holds only the second (directory /b). -/
theorem c8_same_millisecond_ids_collide :
    (handleGdbStartRegister [] 1700000000000 "/a").1 =
      (handleGdbStartRegister
        (handleGdbStartRegister [] 1700000000000 "/a").2 1700000000000 "/b").1 ∧
    (handleGdbStartRegister
        (handleGdbStartRegister [] 1700000000000 "/a").2 1700000000000 "/b").2 =
      [("1700000000000", newSession "1700000000000" "/b")] :=
  ⟨rfl, rfl⟩

/-- Claim C8, amended: the session id is the decimal millisecond clock
reading at the moment of the call, with no collision check: a second
create call in the same millisecond is handed the same id and its
registration replaces the earlier session in place, so the earlier
session is displaced from the sessions map. -/
theorem c8_amended_same_clock_displaces (reg : Registry) (now : Nat)
    (wd1 wd2 : String) (h : lookupReg reg (allocSessionId now) = none) :
    (handleGdbStartRegister reg now wd1).1 =
      (handleGdbStartRegister (handleGdbStartRegister reg now wd1).2 now wd2).1 ∧
    (handleGdbStartRegister (handleGdbStartRegister reg now wd1).2 now wd2).2 =
      reg ++ [(allocSessionId now, newSession (allocSessionId now) wd2)] := by
  constructor
  · rfl
  · simp only [handleGdbStartRegister]
    rw [registrySet_of_absent reg _ _ h]
    exact registrySet_append_same reg _ _ _ h

/-- Witness for the amended claim C8 at an empty registry and clock
reading 42. -/
theorem c8_amended_witness :
    lookupReg [] (allocSessionId 42) = none ∧
    ((handleGdbStartRegister [] 42 "/a").1 =
      (handleGdbStartRegister (handleGdbStartRegister [] 42 "/a").2 42 "/b").1 ∧
     (handleGdbStartRegister (handleGdbStartRegister [] 42 "/a").2 42 "/b").2 =
      [] ++ [(allocSessionId 42, newSession (allocSessionId 42) "/b")]) :=
  ⟨rfl, c8_amended_same_clock_displaces [] 42 "/a" "/b" rfl⟩

/-- Helper for the amended claim C7: trimming leaves a line alone when
both its first and last characters are not whitespace. -/
theorem trimChars_of_ends (a b : Char) (mid : List Char)
    (ha : a.isWhitespace = false) (hb : b.isWhitespace = false) :
    trimChars (a :: (mid ++ [b])) = a :: (mid ++ [b]) := by
  simp [trimChars, List.dropWhile_cons, ha, hb]

/-- Helper for the amended claim C7: the result regex cannot match a
line whose first character is neither a digit nor a caret. -/
theorem matchResult_none_of_head (c : Char) (rest : List Char)
    (hd : c.isDigit = false) (hc : c ≠ '^') :
    MiParser.matchResult (c :: rest) = none := by
  unfold MiParser.matchResult
  rw [show (c :: rest).dropWhile Char.isDigit = c :: rest by
    simp [List.dropWhile_cons, hd]]
  dsimp only
  split
  · rename_i r2 heq
    injection heq with h1 h2
    exact absurd h1 hc
  · rfl

/-- Helper for the amended claim C7: the async regex cannot match a line
whose first character is neither a digit nor one of its three prefix
characters. -/
theorem matchAsync_none_of_head (c : Char) (rest : List Char)
    (hd : c.isDigit = false) (hc : MiParser.asyncTypeOf c = none) :
    MiParser.matchAsync (c :: rest) = none := by
  unfold MiParser.matchAsync
  rw [show (c :: rest).dropWhile Char.isDigit = c :: rest by
    simp [List.dropWhile_cons, hd]]
  simp [hc]

/-- Helper for the amended claim C7: the stream regex on a line built
from a stream prefix, a quote, a newline-free body and a closing quote
captures exactly the body and unescapes it. -/
theorem matchStream_quoted (p : Char) (k : StreamKind) (body : List Char)
    (hp : MiParser.streamKindOf p = some k)
    (hn : body.contains '\n' = false) :
    MiParser.matchStream (p :: '"' :: (body ++ ['"'])) =
      some (Parsed.stream k (MiParser.unescapeString (String.mk body))) := by
  have hn2 : ¬ '\n' ∈ body := by simpa using hn
  unfold MiParser.matchStream
  simp [hp, List.getLast?_concat, List.dropLast_concat, hn, hn2]

/-- Claim C7, amended: a line made of one of the three stream prefixes,
then a double-quoted newline-free body, parses to a stream record whose
kind follows the prefix table and whose text is the body transformed by
the sequential replace chain of unescapeString (so each textual escape
pair is replaced where found, and a doubled backslash followed by n
comes out as a backslash and a newline, as the counterexample shows). -/
theorem c7_amended_stream_records (p : Char) (k : StreamKind) (s : String)
    (hp : MiParser.streamKindOf p = some k)
    (hn : s.data.contains '\n' = false) :
    MiParser.parse (String.mk (p :: '"' :: (s.data ++ ['"']))) =
      some (Parsed.stream k (MiParser.unescapeString s)) := by
  obtain ⟨sl⟩ := s
  have hp3 : p = '~' ∨ p = '@' ∨ p = '&' := by
    unfold MiParser.streamKindOf at hp
    split_ifs at hp <;> simp_all
  have hpw : p.isWhitespace = false := by
    rcases hp3 with rfl | rfl | rfl <;> decide
  have hpd : p.isDigit = false := by
    rcases hp3 with rfl | rfl | rfl <;> decide
  have hpc : p ≠ '^' := by
    rcases hp3 with rfl | rfl | rfl <;> decide
  have hpa : MiParser.asyncTypeOf p = none := by
    rcases hp3 with rfl | rfl | rfl <;> decide
  have hpg : p ≠ '(' := by
    rcases hp3 with rfl | rfl | rfl <;> decide
  have htrim : trimChars (p :: '"' :: (sl ++ ['"'])) = p :: '"' :: (sl ++ ['"']) := by
    have h := trimChars_of_ends p '"' ('"' :: sl) hpw (by decide)
    simpa using h
  have hdata : (String.mk (p :: '"' :: (sl ++ ['"']))).data
      = p :: '"' :: (sl ++ ['"']) := rfl
  unfold MiParser.parse
  rw [hdata, htrim]
  rw [if_neg (by
    intro hcontra
    have : p = '(' := by
      have := List.head_eq_of_cons_eq hcontra
      exact this
    exact hpg this)]
  rw [matchResult_none_of_head p _ hpd hpc]
  rw [matchAsync_none_of_head p _ hpd hpa]
  exact matchStream_quoted p k sl hp hn

/-- Witness for the amended claim C7 at the console line containing the
body hi. -/
theorem c7_amended_witness :
    MiParser.streamKindOf '~' = some StreamKind.console ∧
    ("hi".data.contains '\n') = false ∧
    MiParser.parse (String.mk ('~' :: '"' :: ("hi".data ++ ['"']))) =
      some (Parsed.stream StreamKind.console (MiParser.unescapeString "hi")) :=
  ⟨rfl, rfl, c7_amended_stream_records '~' StreamKind.console "hi" rfl rfl⟩
